import Mathlib

/-!
Verification of the moltbook repository: the VitePress sidebar builder
(`docs/.vitepress/config.mts`) and the candidate-to-digest pipeline
described in the design document.
-/

/-! ## Lexical string order (JS string comparison used by `Array.sort()`) -/

/-- Lexicographic comparison of character lists by code point, the order JS
`Array.prototype.sort()` applies to strings. -/
def lexLe : List Char → List Char → Bool
  | [], _ => true
  | _ :: _, [] => false
  | a :: as, b :: bs =>
    if a.toNat < b.toNat then true
    else if b.toNat < a.toNat then false
    else lexLe as bs

/-- Lexical order on strings, via their character data. -/
def strLe (a b : String) : Bool := lexLe a.data b.data

theorem lexLe_cons (a b : Char) (as bs : List Char) :
    lexLe (a :: as) (b :: bs) = true ↔
      (a.toNat < b.toNat ∨ (a.toNat = b.toNat ∧ lexLe as bs = true)) := by
  simp only [lexLe]
  split_ifs with h1 h2
  · simp [h1]
  · constructor
    · intro h; cases h
    · rintro (h | ⟨h, _⟩) <;> omega
  · have heq : a.toNat = b.toNat := by omega
    simp [heq]

theorem lexLe_total : ∀ as bs : List Char, lexLe as bs = true ∨ lexLe bs as = true := by
  intro as
  induction as with
  | nil => intro bs; left; rfl
  | cons a as ih =>
    intro bs
    cases bs with
    | nil => right; rfl
    | cons b bs =>
      rcases Nat.lt_trichotomy a.toNat b.toNat with h | h | h
      · left; rw [lexLe_cons]; exact Or.inl h
      · rcases ih bs with h' | h'
        · left; rw [lexLe_cons]; exact Or.inr ⟨h, h'⟩
        · right; rw [lexLe_cons]; exact Or.inr ⟨h.symm, h'⟩
      · right; rw [lexLe_cons]; exact Or.inl h

theorem lexLe_trans : ∀ as bs cs : List Char,
    lexLe as bs = true → lexLe bs cs = true → lexLe as cs = true := by
  intro as
  induction as with
  | nil => intro bs cs _ _; rfl
  | cons a as ih =>
    intro bs cs h1 h2
    cases bs with
    | nil => cases h1
    | cons b bs =>
      cases cs with
      | nil => cases h2
      | cons c cs =>
        rw [lexLe_cons] at h1 h2 ⊢
        rcases h1 with h1 | ⟨h1e, h1r⟩
        · rcases h2 with h2 | ⟨h2e, _⟩
          · exact Or.inl (Nat.lt_trans h1 h2)
          · exact Or.inl (h2e ▸ h1)
        · rcases h2 with h2 | ⟨h2e, h2r⟩
          · exact Or.inl (h1e ▸ h2)
          · exact Or.inr ⟨h1e.trans h2e, ih bs cs h1r h2r⟩

instance : IsTotal String (fun a b => strLe a b = true) :=
  ⟨fun a b => lexLe_total a.data b.data⟩

instance : IsTrans String (fun a b => strLe a b = true) :=
  ⟨fun _ _ _ h1 h2 => lexLe_trans _ _ _ h1 h2⟩

/-! ## Sidebar builder (from `docs/.vitepress/config.mts`) -/

/-- A directory entry as returned by `readdirSync(abs, { withFileTypes: true })`:
a name plus whether the entry is a directory. -/
structure DirEntry where
  name : String
  isDir : Bool
deriving DecidableEq, Repr

/-- `listDirNames`: returns `[]` when the directory does not exist (`existsSync`
guard, modelled by `none`); otherwise keeps only directory entries and maps to
their names. -/
def listDirNames (dir : Option (List DirEntry)) : List String :=
  match dir with
  | none => []
  | some es => (es.filter (fun e => e.isDir)).map (fun e => e.name)

/-- `f.endsWith('.md')`, over character data. -/
def endsWithMd (f : String) : Bool := ['.', 'm', 'd'].isSuffixOf f.data

/-- `f.replace(/\.md$/, '')`: strips the final `.md` extension if present. -/
def stripMdSuffix (f : String) : String :=
  if endsWithMd f then f.dropRight 3 else f

/-- `listMdBasenames`: returns `[]` when the directory does not exist; otherwise
keeps names ending in `.md`, strips the extension, and drops the basename
`index`. -/
def listMdBasenames (dir : Option (List String)) : List String :=
  match dir with
  | none => []
  | some fs =>
    ((fs.filter endsWithMd).map stripMdSuffix).filter (fun n => n != "index")

/-- One sidebar item `{ text, link }`. -/
structure SidebarItem where
  text : String
  link : String
deriving DecidableEq, Repr

/-- `makeItems`: basenames sorted ascending (JS `.sort()`), reversed, truncated
to `limit`, then mapped to items with link `/prefix/name`. -/
def makeItems (pfx : String) (dir : Option (List String)) (limit : Nat) :
    List SidebarItem :=
  let names :=
    (((listMdBasenames dir).insertionSort (fun a b => strLe a b = true)).reverse).take limit
  names.map (fun name => ⟨name, "/" ++ pfx ++ "/" ++ name⟩)

/-- One sidebar month group `{ text, collapsed, items }`. -/
structure MonthGroup where
  text : String
  collapsed : Bool
  items : List SidebarItem
deriving DecidableEq, Repr

/-- `makeMonthGroups`: month directory names under `docs/reports` sorted
ascending, reversed, truncated to `limitMonths`; each month becomes a collapsed
group whose items come from `makeItems` with per-month limit 62.  `content m`
is the file listing of `reports/m` (`none` if missing). -/
def makeMonthGroups (dir : Option (List DirEntry))
    (content : String → Option (List String)) (limitMonths : Nat) :
    List MonthGroup :=
  let months :=
    (((listDirNames dir).insertionSort (fun a b => strLe a b = true)).reverse).take limitMonths
  months.map (fun m => ⟨m, true, makeItems ("reports/" ++ m) (content m) 62⟩)

/-- The site config invokes `makeMonthGroups(36)` inside the `Digests` sidebar
group. -/
def sidebarDigestGroups (dir : Option (List DirEntry))
    (content : String → Option (List String)) : List MonthGroup :=
  makeMonthGroups dir content 36

/-! ### Basic facts about the sidebar builder -/

/-- Sorting ascending, reversing and truncating yields a pairwise-descending
list. -/
theorem sortRevTake_pairwise (l : List String) (k : Nat) :
    (((l.insertionSort (fun a b => strLe a b = true)).reverse).take k).Pairwise
      (fun a b : String => strLe b a = true) := by
  have hs := List.sorted_insertionSort (fun a b : String => strLe a b = true) l
  have hrev : ((l.insertionSort (fun a b => strLe a b = true)).reverse).Pairwise
      (fun a b : String => strLe b a = true) :=
    (List.pairwise_reverse).mpr hs
  exact hrev.sublist (List.take_sublist k _)

/-- The item texts of `makeItems` are exactly the sorted-descending, truncated
basenames. -/
theorem makeItems_texts (pfx : String) (dir : Option (List String)) (limit : Nat) :
    (makeItems pfx dir limit).map SidebarItem.text =
      (((listMdBasenames dir).insertionSort (fun a b => strLe a b = true)).reverse).take limit := by
  simp only [makeItems]
  rw [List.map_map]
  exact List.map_id _

/-- The group texts of `makeMonthGroups` are exactly the sorted-descending,
truncated month names. -/
theorem makeMonthGroups_texts (dir : Option (List DirEntry))
    (content : String → Option (List String)) (limitMonths : Nat) :
    (makeMonthGroups dir content limitMonths).map MonthGroup.text =
      (((listDirNames dir).insertionSort (fun a b => strLe a b = true)).reverse).take limitMonths := by
  simp only [makeMonthGroups]
  rw [List.map_map]
  exact List.map_id _

/-! ### Sidebar claims -/

/-- C1: the sidebar built by `makeMonthGroups` lists the month groups in
reverse lexical order and, within each group, lists the item basenames in
reverse lexical order, consulting no metadata beyond the names. -/
theorem sidebar_reverse_lexical (dir : Option (List DirEntry))
    (content : String → Option (List String)) (limit : Nat) :
    ((makeMonthGroups dir content limit).map MonthGroup.text).Pairwise
      (fun a b => strLe b a = true)
    ∧ ∀ g ∈ makeMonthGroups dir content limit,
        (g.items.map SidebarItem.text).Pairwise (fun a b => strLe b a = true) := by
  constructor
  · rw [makeMonthGroups_texts]
    exact sortRevTake_pairwise _ _
  · intro g hg
    simp only [makeMonthGroups, List.mem_map] at hg
    obtain ⟨m, _, rfl⟩ := hg
    rw [show (⟨m, true, makeItems ("reports/" ++ m) (content m) 62⟩ : MonthGroup).items
          = makeItems ("reports/" ++ m) (content m) 62 from rfl]
    rw [makeItems_texts]
    exact sortRevTake_pairwise _ _

/-- Sample month listing used by concrete instantiations. -/
def dirW : Option (List DirEntry) :=
  some [⟨"2025-02", true⟩, ⟨"2025-01", true⟩, ⟨"notes.txt", false⟩]

/-- Sample per-month file listings used by concrete instantiations. -/
def contentW : String → Option (List String) := fun m =>
  if m == "2025-01" then some ["2025-01-02.md", "2025-01-01.md", "index.md"]
  else none

theorem sidebar_reverse_lexical_witness :
    ((makeMonthGroups dirW contentW 24).map MonthGroup.text).Pairwise
      (fun a b => strLe b a = true) :=
  (sidebar_reverse_lexical dirW contentW 24).1

/-- C7: with at most 62 basenames in a month directory, the per-month limit of
62 never truncates — every digest basename of that month appears as a sidebar
item text. -/
theorem makeItems_no_truncation (pfx : String) (dir : Option (List String))
    (h : (listMdBasenames dir).length ≤ 62) :
    ∀ name ∈ listMdBasenames dir,
      name ∈ (makeItems pfx dir 62).map SidebarItem.text := by
  intro name hn
  rw [makeItems_texts]
  have hperm :=
    List.perm_insertionSort (fun a b : String => strLe a b = true) (listMdBasenames dir)
  have hlen :
      ((listMdBasenames dir).insertionSort (fun a b => strLe a b = true)).reverse.length ≤ 62 := by
    rw [List.length_reverse, hperm.length_eq]
    exact h
  rw [List.take_of_length_le hlen, List.mem_reverse]
  exact hperm.mem_iff.mpr hn

/-- Sample month file listing used by concrete instantiations. -/
def mdDirW : Option (List String) :=
  some ["2025-01-02.md", "2025-01-01.md", "index.md", "readme.txt"]

theorem makeItems_no_truncation_witness :
    (listMdBasenames mdDirW).length ≤ 62
    ∧ "2025-01-01" ∈ (makeItems "reports/2025-01" mdDirW 62).map SidebarItem.text :=
  ⟨by decide,
   makeItems_no_truncation "reports/2025-01" mdDirW (by decide) "2025-01-01" (by decide)⟩

/-- C8: the basename `index` is filtered out, so no sidebar item is ever built
from `index.md`. -/
theorem no_index_item (pfx : String) (dir : Option (List String)) (limit : Nat) :
    "index" ∉ listMdBasenames dir
    ∧ ∀ it ∈ makeItems pfx dir limit, it.text ≠ "index" := by
  have hbase : "index" ∉ listMdBasenames dir := by
    intro hmem
    cases dir with
    | none => cases hmem
    | some fs =>
      simp only [listMdBasenames, List.mem_filter] at hmem
      have := hmem.2
      simp at this
  refine ⟨hbase, ?_⟩
  intro it hit heq
  have hmem : it.text ∈ (makeItems pfx dir limit).map SidebarItem.text :=
    List.mem_map_of_mem _ hit
  rw [makeItems_texts] at hmem
  have hmem2 := List.mem_of_mem_take hmem
  rw [List.mem_reverse] at hmem2
  have hperm :=
    List.perm_insertionSort (fun a b : String => strLe a b = true) (listMdBasenames dir)
  have : it.text ∈ listMdBasenames dir := hperm.mem_iff.mp hmem2
  rw [heq] at this
  exact hbase this

theorem no_index_item_witness :
    "index" ∉ listMdBasenames mdDirW :=
  (no_index_item "reports/2025-01" mdDirW 62).1

/-- C9: on a missing directory the listing helpers return `[]` instead of
failing, and a repository with no reports directory yields an empty month
list. -/
theorem missing_dirs_total (content : String → Option (List String)) (limit : Nat) :
    listDirNames none = [] ∧ listMdBasenames none = []
    ∧ makeMonthGroups none content limit = [] := by
  refine ⟨rfl, rfl, ?_⟩
  simp [makeMonthGroups, listDirNames]

/-- C10: with more than 36 month directories, the sidebar keeps exactly 36
groups, and every omitted month name is lexically at most every shown one —
the sidebar shows the 36 lexically greatest months. -/
theorem sidebar_month_limit (dir : Option (List DirEntry))
    (content : String → Option (List String))
    (h : 36 < (listDirNames dir).length) :
    (sidebarDigestGroups dir content).length = 36
    ∧ ∀ m ∈ listDirNames dir,
        m ∉ (sidebarDigestGroups dir content).map MonthGroup.text →
        ∀ m' ∈ (sidebarDigestGroups dir content).map MonthGroup.text,
          strLe m m' = true := by
  have hperm :=
    List.perm_insertionSort (fun a b : String => strLe a b = true) (listDirNames dir)
  have htexts : (sidebarDigestGroups dir content).map MonthGroup.text =
      (((listDirNames dir).insertionSort (fun a b => strLe a b = true)).reverse).take 36 :=
    makeMonthGroups_texts dir content 36
  have hslen :
      ((listDirNames dir).insertionSort (fun a b => strLe a b = true)).reverse.length =
        (listDirNames dir).length := by
    rw [List.length_reverse, hperm.length_eq]
  constructor
  · have := congrArg List.length htexts
    rw [List.length_map, List.length_take, hslen] at this
    omega
  · intro m hm hnot m' hm'
    have hpair :
        (((listDirNames dir).insertionSort (fun a b => strLe a b = true)).reverse).Pairwise
          (fun a b : String => strLe b a = true) :=
      (List.pairwise_reverse).mpr
        (List.sorted_insertionSort (fun a b : String => strLe a b = true) (listDirNames dir))
    set s := ((listDirNames dir).insertionSort (fun a b => strLe a b = true)).reverse with hs
    have hsplit : s.take 36 ++ s.drop 36 = s := List.take_append_drop 36 s
    have hmem : m ∈ s := by
      rw [hs, List.mem_reverse]
      exact hperm.mem_iff.mpr hm
    have hdrop : m ∈ s.drop 36 := by
      rw [← hsplit] at hmem
      rcases List.mem_append.mp hmem with hL | hR
      · exact absurd (htexts ▸ hL) hnot
      · exact hR
    have hm'take : m' ∈ s.take 36 := htexts ▸ hm'
    have hpair' := hsplit ▸ hpair
    exact (List.pairwise_append.mp hpair').2.2 m' hm'take m hdrop

/-- 37 distinct month directory names, used to instantiate the month limit. -/
def monthEntries37 : List DirEntry :=
  (List.range 37).map (fun i => ⟨"m" ++ toString (100 + i), true⟩)

theorem sidebar_month_limit_witness :
    (sidebarDigestGroups (some monthEntries37) contentW).length = 36 :=
  (sidebar_month_limit (some monthEntries37) contentW (by decide)).1

/-! ## Candidate-to-digest pipeline

The pipeline itself is not part of the visible repository sources; it is
modelled from the design document's component contracts (Fetcher, Selector,
Renderer, Publisher, Orchestrator). -/

/-- Modelled from the spec: a raw post fetched from the external source. -/
structure Candidate where
  id : String
  title : String
  post_url : String
  external_url : Option String
  raw_body : String
  fetched_at : Nat
deriving DecidableEq, Repr

/-- Modelled from the spec: per-run selection bounds, exclusion predicate and
dedup window (set of previously published ids). -/
structure SelectionCriteria where
  min_count : Nat
  max_count : Nat
  excluded : Candidate → Bool
  dedup_window : List String

/-- Modelled from the spec: the Selector's ranking order — score descending,
tie-broken by fetch time descending, then by id for determinism. -/
def rankLE (score : Candidate → Int) (a b : Candidate) : Prop :=
  score b < score a ∨ (score a = score b ∧
    (b.fetched_at < a.fetched_at ∨
      (a.fetched_at = b.fetched_at ∧ lexLe a.id.data b.id.data = true)))

instance rankLEDecidable (score : Candidate → Int) : DecidableRel (rankLE score) :=
  fun a b => inferInstanceAs (Decidable
    (score b < score a ∨ (score a = score b ∧
      (b.fetched_at < a.fetched_at ∨
        (a.fetched_at = b.fetched_at ∧ lexLe a.id.data b.id.data = true)))))

/-- Modelled from the spec: Selector steps 1 and 2 — drop candidates whose id
is already in the dedup window, then drop candidates matching an exclusion
predicate. -/
def qualifying (cands : List Candidate) (c : SelectionCriteria) : List Candidate :=
  (cands.filter (fun x => !(c.dedup_window.contains x.id))).filter
    (fun x => !(c.excluded x))

/-- Modelled from the spec: Selector steps 3 and 4 — rank the qualifying
candidates by the pluggable score and take the top ones up to `max_count`,
never fabricating entries. -/
def select (score : Candidate → Int) (cands : List Candidate)
    (c : SelectionCriteria) : List Candidate :=
  ((qualifying cands c).insertionSort (rankLE score)).take c.max_count

/-- Modelled from the spec: one candidate's rendered markdown block. -/
structure DigestEntry where
  title : String
  post_url : String
  external_url : Option String
  summary_points : List String
  task_block : String
deriving DecidableEq, Repr

/-- Substring occurrence over character lists. -/
def listContains (s pat : List Char) : Bool :=
  (List.range (s.length + 1)).any (fun i => pat.isPrefixOf (s.drop i))

/-- `pat` occurs as a substring of `s`. -/
def strContains (s pat : String) : Bool := listContains s.data pat.data

/-- Modelled from the spec: the per-entry template contract — 6 to 10 summary
points and a task block embedding the entry's post_url. -/
def entryOk (e : DigestEntry) : Bool :=
  decide (6 ≤ e.summary_points.length) && decide (e.summary_points.length ≤ 10)
    && strContains e.task_block e.post_url

/-- Modelled from the spec: the Renderer's per-entry error. -/
inductive RenderError where
  | TemplateViolation
deriving DecidableEq, Repr

/-- Modelled from the spec: `render(candidate)` produces an entry (text
generation is an external capability, modelled by `gen`) and fails with
`TemplateViolation` when the template contract is violated. -/
def render (gen : Candidate → DigestEntry) (c : Candidate) :
    Except RenderError DigestEntry :=
  let e := gen c
  if entryOk e then .ok e else .error .TemplateViolation

/-- Modelled from the spec: the digest for one calendar date. -/
structure Digest where
  date_key : String
  entries : List DigestEntry
deriving DecidableEq, Repr

/-- Modelled from the spec: the repository state the Publisher mutates — the
on-disk files (path, content) and the append-only PublicationRecord. -/
structure RepoState where
  files : List (String × String)
  record : List String
deriving DecidableEq, Repr

/-- Modelled from the spec: the Publisher's result. -/
inductive PublishResult where
  | Published
  | AlreadyPublished
  | PublishIOError
deriving DecidableEq, Repr

/-- Modelled from the spec: the publish path is deterministic from the
date_key (month directory then date file). -/
def digestPath (dk : String) : String :=
  "docs/reports/" ++ dk.take 7 ++ "/" ++ dk ++ ".md"

/-- A path is present among the on-disk files. -/
def pathExists (files : List (String × String)) (p : String) : Bool :=
  files.any (fun f => f.1 == p)

/-- Write a file: update in place when the path exists, else append. -/
def writeFile (files : List (String × String)) (p content : String) :
    List (String × String) :=
  if pathExists files p then
    files.map (fun f => if f.1 == p then (p, content) else f)
  else files ++ [(p, content)]

/-- Modelled from the spec: `render_digest` concatenates the entries in
Selector order within the fixed structural template. -/
def render_digest (d : Digest) : String :=
  d.entries.foldl
    (fun acc e =>
      acc ++ "## " ++ e.title ++ "\n" ++ e.post_url ++ "\n"
        ++ String.intercalate "\n" e.summary_points
        ++ "\n```\n" ++ e.task_block ++ "\n```\n")
    ("# " ++ d.date_key ++ "\n")

/-- Modelled from the spec: `publish(digest)` — refuse with `AlreadyPublished`
when a file already exists at the date-keyed path (unless overwriting);
otherwise write the file and append the published ids to the record, both
atomically (an IO failure, modelled by `ioFail`, rolls back and leaves the
state unchanged). -/
def publish (overwrite ioFail : Bool) (st : RepoState) (d : Digest)
    (ids : List String) : PublishResult × RepoState :=
  if pathExists st.files (digestPath d.date_key) && !overwrite then
    (.AlreadyPublished, st)
  else if ioFail then
    (.PublishIOError, st)
  else
    (.Published,
      ⟨writeFile st.files (digestPath d.date_key) (render_digest d),
       st.record ++ ids⟩)

/-- Modelled from the spec: the Fetcher's failure modes. -/
inductive FetchError where
  | SourceUnavailable
  | MalformedResponse
deriving DecidableEq, Repr

/-- Modelled from the spec: why a run ends in the `Failed` terminal state. -/
inductive FailReason where
  | FetchFailed (e : FetchError)
  | AlreadyPublished
  | PublishIOError
deriving DecidableEq, Repr

/-- Modelled from the spec: the Orchestrator's terminal states. -/
inductive RunResult where
  | Published (d : Digest)
  | SkippedEmpty
  | Failed (r : FailReason)
deriving DecidableEq, Repr

/-- The run reached the `Published` terminal state. -/
def RunResult.isPublished : RunResult → Bool
  | .Published _ => true
  | _ => false

/-- Modelled from the spec: per-run configuration — publish mode, selection
bounds, exclusion predicate, pluggable score, the external text generator and
the run's date_key. -/
structure RunConfig where
  overwrite : Bool
  min_count : Nat
  max_count : Nat
  excluded : Candidate → Bool
  score : Candidate → Int
  gen : Candidate → DigestEntry
  date_key : String

/-- The SelectionCriteria the Orchestrator builds for a run: the dedup window
is the persisted PublicationRecord. -/
def pipelineCriteria (cfg : RunConfig) (st : RepoState) : SelectionCriteria :=
  ⟨cfg.min_count, cfg.max_count, cfg.excluded, st.record⟩

/-- The selected candidates of a run, each paired with its rendered entry;
candidates failing render are dropped (drop, log, continue). -/
def pipelineRendered (cfg : RunConfig) (cands : List Candidate) (st : RepoState) :
    List (String × DigestEntry) :=
  (select cfg.score cands (pipelineCriteria cfg st)).filterMap
    (fun c => ((render cfg.gen c).toOption).map (fun e => (c.id, e)))

/-- Modelled from the spec: the Orchestrator — Fetch → Select → Render →
Publish, with terminal states `Published`, `SkippedEmpty` and `Failed`; a run
failing at Fetch or Publish aborts without partial output. -/
def runPipeline (cfg : RunConfig) (ioFail : Bool)
    (fetched : Except FetchError (List Candidate)) (st : RepoState) :
    RunResult × RepoState :=
  match fetched with
  | .error e => (.Failed (.FetchFailed e), st)
  | .ok cands =>
    let rendered := pipelineRendered cfg cands st
    if rendered.isEmpty then (.SkippedEmpty, st)
    else
      match publish cfg.overwrite ioFail st ⟨cfg.date_key, rendered.map Prod.snd⟩
          (rendered.map Prod.fst) with
      | (.Published, st') => (.Published ⟨cfg.date_key, rendered.map Prod.snd⟩, st')
      | (.AlreadyPublished, _) => (.Failed .AlreadyPublished, st)
      | (.PublishIOError, _) => (.Failed .PublishIOError, st)

/-! ### Publisher lemmas -/

/-- In default (non-overwrite) mode, an existing file at the date-keyed path
makes `publish` refuse and leave the state unchanged. -/
theorem publish_alreadyPublished (io : Bool) (st : RepoState) (d : Digest)
    (ids : List String)
    (h : pathExists st.files (digestPath d.date_key) = true) :
    publish false io st d ids = (.AlreadyPublished, st) := by
  simp [publish, h]

/-- A successful `publish` means the guard passed, no IO failure occurred, and
the state got exactly the file write plus the record append. -/
theorem publish_published (ov io : Bool) (st : RepoState) (d : Digest)
    (ids : List String) (st₂ : RepoState)
    (h : publish ov io st d ids = (.Published, st₂)) :
    (pathExists st.files (digestPath d.date_key) && !ov) = false ∧ io = false
      ∧ st₂ = ⟨writeFile st.files (digestPath d.date_key) (render_digest d),
               st.record ++ ids⟩ := by
  unfold publish at h
  split at h
  · cases h
  · split at h
    · cases h
    · rename_i hguard hio
      refine ⟨by simpa using hguard, by simpa using hio, ?_⟩
      cases h
      rfl

/-- After writing a file the path exists. -/
theorem pathExists_writeFile (files : List (String × String)) (p content : String) :
    pathExists (writeFile files p content) p = true := by
  unfold writeFile
  split
  · rename_i hex
    simp only [pathExists, List.any_eq_true] at hex ⊢
    obtain ⟨f, hf, hfp⟩ := hex
    refine ⟨(p, content), ?_, by simp⟩
    have hgf : (fun f => if f.1 == p then (p, content) else f) f = (p, content) := by
      simp [hfp]
    exact List.mem_map.mpr ⟨f, hf, hgf⟩
  · simp [pathExists, List.any_append]

/-- Writing to a previously absent path yields exactly one file at that path. -/
theorem countP_writeFile_absent (files : List (String × String)) (p content : String)
    (h : pathExists files p = false) :
    (writeFile files p content).countP (fun f => f.1 == p) = 1 := by
  have h0 : files.countP (fun f => f.1 == p) = 0 := by
    rw [List.countP_eq_zero]
    intro a ha
    simp only [pathExists, List.any_eq_false] at h
    exact h a ha
  unfold writeFile
  rw [h]
  simp [List.countP_append, h0, List.countP_cons]

/-! ### Orchestrator lemmas -/

/-- Every run either reaches `Published` or leaves the repository state
untouched. -/
theorem runPipeline_snd_eq_or_published (cfg : RunConfig) (io : Bool)
    (fetched : Except FetchError (List Candidate)) (st : RepoState) :
    ((runPipeline cfg io fetched st).1).isPublished = true
      ∨ (runPipeline cfg io fetched st).2 = st := by
  unfold runPipeline
  cases fetched with
  | error e => right; rfl
  | ok cands =>
    simp only
    split
    · right; rfl
    · split
      · left; rfl
      · right; rfl
      · right; rfl

/-- Characterization of a run that reaches `Published`: the fetch succeeded,
some digest was assembled for the run's date_key, the publish guard passed,
and the final state is the initial one plus the file write and the record
append. -/
theorem runPipeline_published_state (cfg : RunConfig) (io : Bool)
    (fetched : Except FetchError (List Candidate)) (st : RepoState)
    (res : RunResult) (st₂ : RepoState)
    (heq : runPipeline cfg io fetched st = (res, st₂))
    (h : res.isPublished = true) :
    ∃ d ids,
      publish cfg.overwrite io st d ids = (.Published, st₂)
      ∧ d.date_key = cfg.date_key
      ∧ res = .Published d
      ∧ st₂ = ⟨writeFile st.files (digestPath cfg.date_key) (render_digest d),
               st.record ++ ids⟩
      ∧ (pathExists st.files (digestPath cfg.date_key) && !cfg.overwrite) = false := by
  unfold runPipeline at heq
  cases fetched with
  | error e =>
    cases heq
    simp [RunResult.isPublished] at h
  | ok cands =>
    simp only at heq
    split at heq
    · cases heq
      simp [RunResult.isPublished] at h
    · split at heq
      · rename_i st' hpub
        cases heq
        refine ⟨⟨cfg.date_key, (pipelineRendered cfg cands st).map Prod.snd⟩,
                (pipelineRendered cfg cands st).map Prod.fst, hpub, rfl, rfl, ?_, ?_⟩
        · exact (publish_published _ _ _ _ _ _ hpub).2.2
        · exact (publish_published _ _ _ _ _ _ hpub).1
      · cases heq
        simp [RunResult.isPublished] at h
      · cases heq
        simp [RunResult.isPublished] at h

/-- When the run's date-keyed path already exists and overwrite is off, the
run cannot publish and leaves the state untouched. -/
theorem runPipeline_blocked (cfg : RunConfig) (io : Bool)
    (fetched : Except FetchError (List Candidate)) (st : RepoState)
    (hov : cfg.overwrite = false)
    (hex : pathExists st.files (digestPath cfg.date_key) = true) :
    (runPipeline cfg io fetched st).2 = st
      ∧ ((runPipeline cfg io fetched st).1).isPublished = false := by
  rcases runPipeline_snd_eq_or_published cfg io fetched st with hp | hst
  · obtain ⟨d, ids, _, hdk, _, _, hguard⟩ :=
      runPipeline_published_state cfg io fetched st _ _ rfl hp
    rw [hov] at hguard
    simp [hex] at hguard
  · refine ⟨hst, ?_⟩
    cases hres : ((runPipeline cfg io fetched st).1).isPublished with
    | false => rfl
    | true =>
      obtain ⟨d, ids, _, hdk, _, _, hguard⟩ :=
        runPipeline_published_state cfg io fetched st _ _ rfl hres
      rw [hov] at hguard
      simp [hex] at hguard

/-! ### Pipeline claims -/

/-- C6: a run that ends in the `Failed` terminal state leaves the repository
state observably unchanged — no digest file and no PublicationRecord entries
were added; the file write and the history append happen together or not at
all. -/
theorem failed_run_unchanged (cfg : RunConfig) (io : Bool)
    (fetched : Except FetchError (List Candidate)) (st : RepoState)
    (r : FailReason)
    (h : (runPipeline cfg io fetched st).1 = .Failed r) :
    (runPipeline cfg io fetched st).2 = st := by
  rcases runPipeline_snd_eq_or_published cfg io fetched st with hp | hst
  · rw [h] at hp
    simp [RunResult.isPublished] at hp
  · exact hst

theorem failed_run_unchanged_witness :
    (runPipeline ⟨false, 0, 12, fun _ => false, fun _ => 0,
        fun c => ⟨c.title, c.post_url, none, [], ""⟩, "2025-01-02"⟩ false
        (.error .SourceUnavailable) ⟨[], []⟩).1
      = .Failed (.FetchFailed .SourceUnavailable)
    ∧ (runPipeline ⟨false, 0, 12, fun _ => false, fun _ => 0,
        fun c => ⟨c.title, c.post_url, none, [], ""⟩, "2025-01-02"⟩ false
        (.error .SourceUnavailable) ⟨[], []⟩).2 = ⟨[], []⟩ :=
  ⟨rfl, failed_run_unchanged _ _ _ _ _ rfl⟩

/-- C5: the Selector never returns more than `max_count` candidates; when at
least `min_count` qualify it returns at least `min_count`; when fewer than
`min_count` qualify it returns exactly the qualifying candidates, fabricating
nothing. -/
theorem select_bounded (score : Candidate → Int) (cands : List Candidate)
    (c : SelectionCriteria) (h : c.min_count ≤ c.max_count) :
    (select score cands c).length ≤ c.max_count
    ∧ (c.min_count ≤ (qualifying cands c).length →
        c.min_count ≤ (select score cands c).length)
    ∧ ((qualifying cands c).length < c.min_count →
        (select score cands c).Perm (qualifying cands c)) := by
  have hperm := List.perm_insertionSort (rankLE score) (qualifying cands c)
  have hlen : ((qualifying cands c).insertionSort (rankLE score)).length
      = (qualifying cands c).length := hperm.length_eq
  refine ⟨?_, ?_, ?_⟩
  · rw [select, List.length_take]
    omega
  · intro hq
    rw [select, List.length_take, hlen]
    omega
  · intro hq
    have hle : ((qualifying cands c).insertionSort (rankLE score)).length
        ≤ c.max_count := by omega
    rw [select, List.take_of_length_le hle]
    exact hperm

/-- Sample candidates and criteria for concrete instantiations. -/
def candA : Candidate := ⟨"a", "A", "https://x/a", none, "", 1⟩

def candB : Candidate := ⟨"b", "B", "https://x/b", none, "", 2⟩

def critW : SelectionCriteria := ⟨1, 3, fun _ => false, []⟩

theorem select_bounded_witness :
    (select (fun _ => 0) [candA, candB] critW).length ≤ critW.max_count
    ∧ (critW.min_count ≤ (qualifying [candA, candB] critW).length →
        critW.min_count ≤ (select (fun _ => 0) [candA, candB] critW).length)
    ∧ ((qualifying [candA, candB] critW).length < critW.min_count →
        (select (fun _ => 0) [candA, candB] critW).Perm
          (qualifying [candA, candB] critW)) :=
  select_bounded (fun _ => 0) [candA, candB] critW (by decide)

/-- Selected candidates always come from the qualifying pool. -/
theorem mem_select (score : Candidate → Int) (cands : List Candidate)
    (c : SelectionCriteria) (x : Candidate)
    (hx : x ∈ select score cands c) : x ∈ qualifying cands c := by
  have hperm := List.perm_insertionSort (rankLE score) (qualifying cands c)
  exact hperm.mem_iff.mp (List.mem_of_mem_take hx)

/-- The PublicationRecord is append-only: a run never removes an id. -/
theorem runPipeline_record_mono (cfg : RunConfig) (io : Bool)
    (fetched : Except FetchError (List Candidate)) (st : RepoState) (i : String)
    (h : i ∈ st.record) :
    i ∈ (runPipeline cfg io fetched st).2.record := by
  unfold runPipeline
  cases fetched with
  | error e => exact h
  | ok cands =>
    simp only
    split
    · exact h
    · split
      · rename_i st' hpub
        obtain ⟨_, _, hst₂⟩ := publish_published _ _ _ _ _ _ hpub
        rw [hst₂]
        exact List.mem_append_left _ h
      · exact h
      · exact h

/-- C3: a candidate whose id is already in the PublicationRecord at the start
of a run is dropped by the Selector's dedup step and its id is still recorded
after the run — it can never reappear in a later digest. -/
theorem dedup_never_reselected (cfg : RunConfig) (io : Bool)
    (cands : List Candidate) (st : RepoState) (i : String)
    (h : i ∈ st.record) :
    (∀ c ∈ select cfg.score cands (pipelineCriteria cfg st), c.id ≠ i)
    ∧ i ∈ (runPipeline cfg io (.ok cands) st).2.record := by
  constructor
  · intro c hc hid
    have hq := mem_select cfg.score cands (pipelineCriteria cfg st) c hc
    simp only [qualifying, List.mem_filter] at hq
    have hdedup : (!(st.record.contains c.id)) = true := hq.1.2
    rw [hid] at hdedup
    simp only [List.contains] at hdedup
    rw [List.elem_eq_true_of_mem h] at hdedup
    cases hdedup
  · exact runPipeline_record_mono cfg io (.ok cands) st i h

/-- Sample generator, config and candidate producing a valid entry. -/
def genW : Candidate → DigestEntry := fun c =>
  ⟨c.title, c.post_url, none, ["1", "2", "3", "4", "5", "6"], "do: " ++ c.post_url⟩

def cfgW : RunConfig :=
  ⟨false, 0, 12, fun _ => false, fun _ => 0, genW, "2025-01-02"⟩

def candW : Candidate := ⟨"id1", "T", "https://x/p/1", none, "body", 10⟩

theorem dedup_never_reselected_witness :
    (∀ c ∈ select cfgW.score [candA, candB] (pipelineCriteria cfgW ⟨[], ["a"]⟩),
        c.id ≠ "a")
    ∧ "a" ∈ (runPipeline cfgW false (.ok [candA, candB]) ⟨[], ["a"]⟩).2.record :=
  dedup_never_reselected cfgW false [candA, candB] ⟨[], ["a"]⟩ "a" (by decide)

/-- The template check spelled out. -/
theorem entryOk_iff (e : DigestEntry) :
    entryOk e = true ↔
      (6 ≤ e.summary_points.length ∧ e.summary_points.length ≤ 10
        ∧ strContains e.task_block e.post_url = true) := by
  simp [entryOk, Bool.and_eq_true, decide_eq_true_iff, and_assoc]

/-- Every pair assembled for the digest passed the template check. -/
theorem pipelineRendered_entryOk (cfg : RunConfig) (cands : List Candidate)
    (st : RepoState) (p : String × DigestEntry)
    (hp : p ∈ pipelineRendered cfg cands st) : entryOk p.2 = true := by
  simp only [pipelineRendered, List.mem_filterMap] at hp
  obtain ⟨c, _, hfc⟩ := hp
  by_cases hok : entryOk (cfg.gen c) = true
  · simp [render, hok, Except.toOption] at hfc
    rw [← hfc]
    exact hok
  · simp [render, hok, Except.toOption] at hfc

/-- C4: every entry of a successfully published digest has 6–10 summary points
and a task block containing its post_url; an entry violating either bound
fails render with `TemplateViolation` (and is hence dropped, not published). -/
theorem published_digest_template (cfg : RunConfig) (io : Bool)
    (fetched : Except FetchError (List Candidate)) (st : RepoState) (d : Digest)
    (h : (runPipeline cfg io fetched st).1 = .Published d) :
    (∀ e ∈ d.entries,
        6 ≤ e.summary_points.length ∧ e.summary_points.length ≤ 10
          ∧ strContains e.task_block e.post_url = true)
    ∧ ∀ c : Candidate,
        ¬(6 ≤ (cfg.gen c).summary_points.length
            ∧ (cfg.gen c).summary_points.length ≤ 10
            ∧ strContains (cfg.gen c).task_block (cfg.gen c).post_url = true) →
          render cfg.gen c = .error .TemplateViolation := by
  constructor
  · unfold runPipeline at h
    cases fetched with
    | error e => exact RunResult.noConfusion h
    | ok cands =>
      simp only at h
      split at h
      · exact RunResult.noConfusion h
      · split at h
        · injection h with h'
          subst h'
          intro e he
          obtain ⟨p, hp, rfl⟩ := List.mem_map.mp he
          exact (entryOk_iff p.2).mp (pipelineRendered_entryOk cfg cands st p hp)
        · exact RunResult.noConfusion h
        · exact RunResult.noConfusion h
  · intro c hc
    have hfalse : entryOk (cfg.gen c) = false := by
      rw [← Bool.not_eq_true]
      intro hok
      exact hc ((entryOk_iff _).mp hok)
    simp [render, hfalse]

/-- The digest the sample run publishes. -/
def digestW : Digest :=
  ⟨"2025-01-02",
   [⟨"T", "https://x/p/1", none, ["1", "2", "3", "4", "5", "6"],
     "do: https://x/p/1"⟩]⟩

theorem published_digest_template_witness :
    (runPipeline cfgW false (.ok [candW]) ⟨[], []⟩).1 = .Published digestW
    ∧ ∀ e ∈ digestW.entries,
        6 ≤ e.summary_points.length ∧ e.summary_points.length ≤ 10
          ∧ strContains e.task_block e.post_url = true :=
  ⟨rfl,
   (published_digest_template cfgW false (.ok [candW]) ⟨[], []⟩ digestW rfl).1⟩

/-- C2: after a successful default-mode (non-overwrite) run, exactly one file
exists at the run's date-keyed path; any further publish for the same
date_key returns `AlreadyPublished` without touching the state, and a whole
second run for the same date_key leaves the state unchanged and never
publishes again. -/
theorem publish_idempotent (cfg : RunConfig)
    (fetched fetched₂ : Except FetchError (List Candidate))
    (st : RepoState) (io₂ : Bool) (d₂ : Digest) (ids₂ : List String)
    (hov : cfg.overwrite = false)
    (h : ((runPipeline cfg false fetched st).1).isPublished = true)
    (hdk : d₂.date_key = cfg.date_key) :
    ((runPipeline cfg false fetched st).2.files.countP
        (fun f => f.1 == digestPath cfg.date_key)) = 1
    ∧ publish false io₂ (runPipeline cfg false fetched st).2 d₂ ids₂
        = (.AlreadyPublished, (runPipeline cfg false fetched st).2)
    ∧ (runPipeline cfg io₂ fetched₂ (runPipeline cfg false fetched st).2).2
        = (runPipeline cfg false fetched st).2
    ∧ ((runPipeline cfg io₂ fetched₂
          (runPipeline cfg false fetched st).2).1).isPublished = false := by
  have heq : runPipeline cfg false fetched st
      = ((runPipeline cfg false fetched st).1, (runPipeline cfg false fetched st).2) :=
    rfl
  obtain ⟨d, ids, hpub, hdk', hres, hst₂, hguard⟩ :=
    runPipeline_published_state cfg false fetched st _ _ heq h
  rw [hov] at hguard
  have hex0 : pathExists st.files (digestPath cfg.date_key) = false := by
    simpa using hguard
  have hfiles : (runPipeline cfg false fetched st).2.files
      = writeFile st.files (digestPath cfg.date_key) (render_digest d) := by
    rw [hst₂]
  have hex1 : pathExists (runPipeline cfg false fetched st).2.files
      (digestPath cfg.date_key) = true := by
    rw [hfiles]
    exact pathExists_writeFile _ _ _
  refine ⟨?_, ?_, ?_, ?_⟩
  · rw [hfiles]
    exact countP_writeFile_absent _ _ _ hex0
  · apply publish_alreadyPublished
    rw [hdk]
    exact hex1
  · exact (runPipeline_blocked cfg io₂ fetched₂ _ hov hex1).1
  · exact (runPipeline_blocked cfg io₂ fetched₂ _ hov hex1).2

theorem publish_idempotent_witness :
    ((runPipeline cfgW false (.ok [candW]) ⟨[], []⟩).2.files.countP
        (fun f => f.1 == digestPath cfgW.date_key)) = 1
    ∧ publish false false (runPipeline cfgW false (.ok [candW]) ⟨[], []⟩).2
        digestW []
        = (.AlreadyPublished, (runPipeline cfgW false (.ok [candW]) ⟨[], []⟩).2)
    ∧ (runPipeline cfgW false (.ok [candW])
          (runPipeline cfgW false (.ok [candW]) ⟨[], []⟩).2).2
        = (runPipeline cfgW false (.ok [candW]) ⟨[], []⟩).2
    ∧ ((runPipeline cfgW false (.ok [candW])
          (runPipeline cfgW false (.ok [candW]) ⟨[], []⟩).2).1).isPublished = false :=
  publish_idempotent cfgW (.ok [candW]) (.ok [candW]) ⟨[], []⟩ false digestW []
    rfl rfl rfl
